import Mathlib

/-!
Verification development for the f1n portfolio backend.

The repository keeps per-user holdings (stocks, mutual funds, crypto) in a
JSON-backed in-memory table (`portfolio_manager.py`), fetches market data
from one REST provider (`fmp_client.py`), and exposes tool operations
(`main.py`) that compose the two.  This file is a shallow embedding of those
parts: Python dicts become typed structures, the `USER_DATA` table plus its
mirror file become an explicit `Store` value, monetary floats are modelled as
exact rationals, and every outbound HTTP call is replaced by an explicit
outcome parameter so that the pure control flow of the source is preserved.
-/

namespace F1n

/-- A stock holding record, from `models.StockHolding`. -/
structure StockHolding where
  ticker : String
  quantity : ℚ
  avg_cost : ℚ
  purchase_date : Option String
  deriving DecidableEq

/-- A mutual-fund holding record, from `models.MutualFundHolding`.
Note its value fields are named `units` and `avg_nav`, not `quantity` and
`avg_cost`. -/
structure MutualFundHolding where
  ticker : String
  units : ℚ
  avg_nav : ℚ
  purchase_date : Option String
  deriving DecidableEq

/-- A crypto holding record, from `models.CryptoHolding`. -/
structure CryptoHolding where
  ticker : String
  quantity : ℚ
  avg_cost : ℚ
  purchase_date : Option String
  deriving DecidableEq

/-- One user's portfolio, from `models.Portfolio`. -/
structure Portfolio where
  stocks : List StockHolding
  mutual_funds : List MutualFundHolding
  crypto : List CryptoHolding
  deriving DecidableEq

/-- The empty portfolio materialized by `get_user_portfolio` for absent
users: three empty asset-class lists. -/
def emptyPortfolio : Portfolio := ⟨[], [], []⟩

/-- The whole store of `portfolio_manager.py`: the in-memory `USER_DATA`
table (a dict from user id to portfolio, modelled as an insertion-ordered
association list) together with the persisted `user_data.json` document
(`file`), which `save_data` overwrites with the table. -/
structure Store where
  table : List (String × Portfolio)
  file : List (String × Portfolio)
  deriving DecidableEq

/-- Python `str.upper()`: uppercases every character.  Written over the
string's character data so that it evaluates by kernel reduction
(`String.toUpper` recurses on byte positions with a well-founded measure,
which `decide` cannot unfold). -/
def pyUpper (s : String) : String := ⟨s.data.map Char.toUpper⟩

/-- Dict lookup `USER_DATA[uid]`: the first entry with the given key. -/
def lookupTable (tbl : List (String × Portfolio)) (uid : String) : Option Portfolio :=
  (tbl.find? (fun e => e.1 == uid)).map (fun e => e.2)

/-- Python `USER_DATA.setdefault(uid, empty)`: keeps the table if the key is
present, otherwise appends the key with an empty portfolio (dicts preserve
insertion order, so a new key goes to the end). -/
def setdefaultTable (tbl : List (String × Portfolio)) (uid : String) : List (String × Portfolio) :=
  match lookupTable tbl uid with
  | some _ => tbl
  | none => tbl ++ [(uid, emptyPortfolio)]

/-- Dict assignment `USER_DATA[uid] = p`: replaces the value at an existing
key in place, or appends the key at the end. -/
def assignTable (uid : String) (p : Portfolio) : List (String × Portfolio) → List (String × Portfolio)
  | [] => [(uid, p)]
  | e :: rest => if e.1 = uid then (uid, p) :: rest else e :: assignTable uid p rest

/-- The portfolio a lookup of `uid` observes (empty if absent). -/
def portfolioOf (st : Store) (uid : String) : Portfolio :=
  (lookupTable st.table uid).getD emptyPortfolio

/-- `portfolio_manager.get_user_portfolio`: `setdefault` materializes an
empty portfolio for an absent user (an in-memory effect only: the file is
untouched), and the stored value is validated and returned. -/
def get_user_portfolio (st : Store) (uid : String) : Store × Portfolio :=
  (⟨setdefaultTable st.table uid, st.file⟩,
   (lookupTable (setdefaultTable st.table uid) uid).getD emptyPortfolio)

/-- The `asset_data` argument of `add_asset_to_portfolio`: a record matching
the `asset_type` the caller names. -/
inductive AssetData where
  | stock (h : StockHolding)
  | mutual_fund (h : MutualFundHolding)
  | crypto (h : CryptoHolding)
  deriving DecidableEq

/-- The `ticker` field of the supplied record (`asset_data['ticker']`). -/
def AssetData.ticker : AssetData → String
  | .stock h => h.ticker
  | .mutual_fund h => h.ticker
  | .crypto h => h.ticker

/-- The scan-and-replace loop of `add_asset_to_portfolio`: the first element
whose stored ticker equals the (already uppercased) comparison key `T` is
replaced in place by the supplied record `d`; if none matches, `d` is
appended.  Note the stored tickers are compared verbatim against `T`. -/
def upsertList {α : Type} (tk : α → String) (T : String) (d : α) : List α → List α
  | [] => [d]
  | a :: rest => if tk a = T then d :: rest else a :: upsertList tk T d rest

/-- The outcome of a `portfolio_manager` mutation: either the Python return
value, or an uncaught `KeyError` naming the missing dict key (neither
handler catches anything, so the exception propagates to the caller). -/
inductive PyResult (α : Type) where
  | ok (val : α)
  | keyError (key : String)
  deriving DecidableEq

/-- `portfolio_manager.add_asset_to_portfolio`: reads the portfolio (with
`setdefault`'s materialization effect) and computes the subscript key
`asset_list_key = asset_type + "s"` — `stocks`, `mutual_funds` or
`cryptos`.  The portfolio document only has keys `stocks`, `mutual_funds`
and `crypto`, so the crypto arm raises `KeyError` at its first subscript,
after the materialization and before any write or save.  For the other two
classes it uppercases the supplied record's ticker to form the comparison
key, upserts the record — stored verbatim, not uppercased — into the class
list, writes the portfolio back and persists the whole table
(`save_data`). -/
def add_asset_to_portfolio (st : Store) (uid : String) (d : AssetData) :
    Store × PyResult Unit :=
  let tbl := setdefaultTable st.table uid
  let p := (lookupTable tbl uid).getD emptyPortfolio
  let T := pyUpper d.ticker
  match d with
  | .stock h =>
      let tbl2 := assignTable uid { p with stocks := upsertList StockHolding.ticker T h p.stocks } tbl
      (⟨tbl2, tbl2⟩, PyResult.ok ())
  | .mutual_fund h =>
      let tbl2 := assignTable uid
        { p with mutual_funds := upsertList MutualFundHolding.ticker T h p.mutual_funds } tbl
      (⟨tbl2, tbl2⟩, PyResult.ok ())
  | .crypto _ => (⟨tbl, st.file⟩, PyResult.keyError "cryptos")

/-- The `asset_type` literal of `portfolio_manager`. -/
inductive AssetClass where
  | stock
  | mutual_fund
  | crypto
  deriving DecidableEq

/-- `portfolio_manager.remove_asset_from_portfolio`: reads the portfolio
(with `setdefault`'s materialization effect) and computes the same
`asset_list_key = asset_type + "s"`, so the crypto arm raises `KeyError`
on `portfolio["cryptos"]` before filtering anything.  For the stock and
mutual-fund classes it keeps only the entries whose uppercased ticker
differs from the uppercased argument and — only when the list shrank —
writes the portfolio back, persists the table and returns `true`;
otherwise it returns `false` without saving. -/
def remove_asset_from_portfolio (st : Store) (uid : String) (cls : AssetClass) (t : String) :
    Store × PyResult Bool :=
  let tbl := setdefaultTable st.table uid
  let p := (lookupTable tbl uid).getD emptyPortfolio
  match cls with
  | .stock =>
      let l := p.stocks.filter (fun a => pyUpper a.ticker != pyUpper t)
      if l.length < p.stocks.length then
        let tbl2 := assignTable uid { p with stocks := l } tbl
        (⟨tbl2, tbl2⟩, PyResult.ok true)
      else (⟨tbl, st.file⟩, PyResult.ok false)
  | .mutual_fund =>
      let l := p.mutual_funds.filter (fun a => pyUpper a.ticker != pyUpper t)
      if l.length < p.mutual_funds.length then
        let tbl2 := assignTable uid { p with mutual_funds := l } tbl
        (⟨tbl2, tbl2⟩, PyResult.ok true)
      else (⟨tbl, st.file⟩, PyResult.ok false)
  | .crypto => (⟨tbl, st.file⟩, PyResult.keyError "cryptos")

/-- The `remove_asset` tool of `main.py`: uppercases the ticker, then tries
the stock class, the crypto class and the mutual-fund class in that order,
returning right after the first class in which removal succeeded.  The tool
wraps nothing in try/except, so an uncaught `KeyError` from a handler —
which the crypto attempt always raises — propagates and aborts the
cascade. -/
def remove_asset (st : Store) (uid : String) (t : String) : Store × PyResult String :=
  let T := pyUpper t
  let r1 := remove_asset_from_portfolio st uid AssetClass.stock T
  match r1.2 with
  | PyResult.keyError k => (r1.1, PyResult.keyError k)
  | PyResult.ok true =>
      (r1.1, PyResult.ok ("Done. I have removed stock " ++ T ++ " from your portfolio."))
  | PyResult.ok false =>
    let r2 := remove_asset_from_portfolio r1.1 uid AssetClass.crypto T
    match r2.2 with
    | PyResult.keyError k => (r2.1, PyResult.keyError k)
    | PyResult.ok true =>
        (r2.1, PyResult.ok ("Done. I have removed crypto " ++ T ++ " from your portfolio."))
    | PyResult.ok false =>
      let r3 := remove_asset_from_portfolio r2.1 uid AssetClass.mutual_fund T
      match r3.2 with
      | PyResult.keyError k => (r3.1, PyResult.keyError k)
      | PyResult.ok true =>
          (r3.1, PyResult.ok ("Done. I have removed fund " ++ T ++ " from your portfolio."))
      | PyResult.ok false =>
          (r3.1, PyResult.ok ("I could not find " ++ T ++ " in your portfolio to remove."))

/-- A quote record from the provider, keeping the two fields
`get_portfolio_summary` reads: `symbol` and `price`.  The price is `none`
when the provider reports JSON `null`. -/
structure Quote where
  symbol : String
  price : Option ℚ
  deriving DecidableEq

/-- The possible outcomes of the single outbound HTTP GET performed by
`FMPClient._make_request`: a 2xx response with a JSON body, a non-2xx
response (`raise_for_status` raises `HTTPStatusError`), or a transport-level
exception. -/
inductive HttpOutcome where
  | ok (body : List Quote)
  | statusError
  | transportError
  deriving DecidableEq

/-- `FMPClient._make_request`: returns the parsed JSON body on success and
Python `None` (here `none`) on a non-2xx response or a transport error —
both `except` branches return `None`. -/
def make_request (oc : HttpOutcome) : Option (List Quote) :=
  match oc with
  | .ok body => some body
  | .statusError => none
  | .transportError => none

/-- `FMPClient.get_quotes`: returns the empty list without any request when
the symbol list is empty, and otherwise returns whatever `_make_request`
produced for the one batch request (so `None` on failure). -/
def get_quotes (symbols : List String) (oc : HttpOutcome) : Option (List Quote) :=
  if symbols = [] then some [] else make_request oc

/-- The market symbol the summary valuation loop looks up for a holding:
the uppercased ticker, with a `USD` suffix for crypto. -/
def assetSymbol (isCrypto : Bool) (t : String) : String :=
  if isCrypto then pyUpper t ++ "USD" else pyUpper t

/-- The dict built by `price_map = ...` in `get_portfolio_summary`, as a
lookup function: for duplicate symbols the last quote wins, as in a Python
dict comprehension.  The outer `Option` is absence of the symbol
(`dict.get` returning `None`), the inner one a `null` price. -/
def price_map_get (qs : List Quote) (s : String) : Option (Option ℚ) :=
  (qs.reverse.find? (fun q => q.symbol == s)).map Quote.price

/-- Python truthiness of `current_price` after
`current_price = price_map.get(symbol)`: the price is used only when the
symbol is present and its price is neither `null` nor zero. -/
def truthyPrice : Option (Option ℚ) → Option ℚ
  | some (some p) => if p = 0 then none else some p
  | _ => none

/-- One row of the per-class `details` list: the raw ticker and the numeric
quantity, price, current value and gain/loss that the code formats into
strings. -/
structure Detail where
  ticker : String
  quantity : ℚ
  current_price : ℚ
  current_value : ℚ
  gain_loss : ℚ
  deriving DecidableEq

/-- The `(ticker, quantity, avg_cost)` view of a stock holding used by the
valuation loop (`cost_field` is `avg_cost` for both valued classes). -/
def stockTriples (l : List StockHolding) : List (String × ℚ × ℚ) :=
  l.map (fun a => (a.ticker, a.quantity, a.avg_cost))

/-- The `(ticker, quantity, avg_cost)` view of a crypto holding. -/
def cryptoTriples (l : List CryptoHolding) : List (String × ℚ × ℚ) :=
  l.map (fun a => (a.ticker, a.quantity, a.avg_cost))

/-- The inner loop of `get_portfolio_summary` over one asset-class list:
threads the `total_value` and `total_investment` accumulators and appends a
detail row for each holding whose looked-up price is truthy; holdings with a
missing, `null` or zero price are skipped entirely. -/
def loopAssets (pm : String → Option (Option ℚ)) (isCrypto : Bool) :
    List (String × ℚ × ℚ) → ℚ → ℚ → List Detail → List Detail × ℚ × ℚ
  | [], tv, ti, ds => (ds, tv, ti)
  | (t, q, c) :: rest, tv, ti, ds =>
    match truthyPrice (pm (assetSymbol isCrypto t)) with
    | some p =>
        loopAssets pm isCrypto rest (tv + q * p) (ti + q * c)
          (ds ++ [⟨t, q, p, q * p, q * p - q * c⟩])
    | none => loopAssets pm isCrypto rest tv ti ds

/-- The result of `get_portfolio_summary`, with presentation abstracted:
either one of the two fixed text messages, or a report carrying the stock
details, the crypto details (the only two classes the valuation loop
visits), and the three totals of `portfolio_overview`. -/
inductive SummaryResult where
  | message (text : String)
  | report (stockDetails : List Detail) (cryptoDetails : List Detail)
      (total_value : ℚ) (total_investment : ℚ) (total_gain_loss : ℚ)
  deriving DecidableEq

/-- The fixed reply for a portfolio with no holdings in any class. -/
def emptyPortfolioMessage : String :=
  "Your portfolio is currently empty. You can add assets using tools like `add_stock` or `add_crypto`."

/-- The fixed reply when the batch quote fetch yields nothing (modulo the
contraction in could-not, which the source spells with an apostrophe). -/
def priceUnavailableMessage : String :=
  "Sorry, I could not fetch live market prices right now. Please try again."

/-- The symbol list `all_tickers` of `get_portfolio_summary`: the raw
tickers of the stocks and mutual funds, and the raw crypto tickers suffixed
with `USD`. -/
def allTickers (p : Portfolio) : List String :=
  p.stocks.map StockHolding.ticker ++ p.mutual_funds.map MutualFundHolding.ticker
    ++ p.crypto.map (fun c => c.ticker ++ "USD")

/-- The report part of `get_portfolio_summary`: runs the valuation loop over
the stocks and then — continuing with the same accumulators — over the
crypto holdings; mutual funds are never visited.  `total_gain_loss` is
`total_value - total_investment`. -/
def reportOf (pm : String → Option (Option ℚ)) (p : Portfolio) : SummaryResult :=
  let sres := loopAssets pm false (stockTriples p.stocks) 0 0 []
  let cres := loopAssets pm true (cryptoTriples p.crypto) sres.2.1 sres.2.2 []
  SummaryResult.report sres.1 cres.1 cres.2.1 cres.2.2 (cres.2.1 - cres.2.2)

/-- `main.get_portfolio_summary`: loads the portfolio (with the lazy
materialization effect of `get_user_portfolio` and no other store effect),
returns the fixed empty message when `all_tickers` is empty, fetches the
batch quotes otherwise, returns the fixed unavailable message when the fetch
result is falsy (`None` or the empty list), and otherwise builds the priced
report. -/
def get_portfolio_summary (st : Store) (uid : String) (oc : HttpOutcome) :
    Store × SummaryResult :=
  if allTickers (get_user_portfolio st uid).2 = [] then
    ((get_user_portfolio st uid).1, SummaryResult.message emptyPortfolioMessage)
  else
    match get_quotes (allTickers (get_user_portfolio st uid).2) oc with
    | none => ((get_user_portfolio st uid).1, SummaryResult.message priceUnavailableMessage)
    | some [] => ((get_user_portfolio st uid).1, SummaryResult.message priceUnavailableMessage)
    | some qs => ((get_user_portfolio st uid).1, reportOf (price_map_get qs) (get_user_portfolio st uid).2)

/-- The batch-quote requests `get_portfolio_summary` issues, read off its
control flow: none when `all_tickers` is empty (the function returns before
calling `fmp.get_quotes`), and exactly one with the full symbol list
otherwise. -/
def summary_fetch_calls (st : Store) (uid : String) : List (List String) :=
  if allTickers (get_user_portfolio st uid).2 = [] then []
  else [allTickers (get_user_portfolio st uid).2]

/-- Spec-side: the price the valuation uses for a `(ticker, qty, cost)`
triple, when there is one. -/
def pricedPrice (pm : String → Option (Option ℚ)) (isCrypto : Bool)
    (a : String × ℚ × ℚ) : Option ℚ :=
  truthyPrice (pm (assetSymbol isCrypto a.1))

/-- Spec-side: the priced holdings of one class, each paired with its price,
in list order. -/
def pricedAssets (pm : String → Option (Option ℚ)) (isCrypto : Bool)
    (l : List (String × ℚ × ℚ)) : List ((String × ℚ × ℚ) × ℚ) :=
  l.filterMap (fun a => (pricedPrice pm isCrypto a).map (fun p => (a, p)))

/-- Spec-side: the detail rows of one class — one row per priced holding,
with `current_value = quantity × price` and
`gain_loss = current_value − investment_value`. -/
def specDetails (pm : String → Option (Option ℚ)) (isCrypto : Bool)
    (l : List (String × ℚ × ℚ)) : List Detail :=
  (pricedAssets pm isCrypto l).map
    (fun x => ⟨x.1.1, x.1.2.1, x.2, x.1.2.1 * x.2, x.1.2.1 * x.2 - x.1.2.1 * x.1.2.2⟩)

/-- Spec-side: the summed current value of the priced holdings of one
class. -/
def specValue (pm : String → Option (Option ℚ)) (isCrypto : Bool)
    (l : List (String × ℚ × ℚ)) : ℚ :=
  ((pricedAssets pm isCrypto l).map (fun x => x.1.2.1 * x.2)).sum

/-- Spec-side: the summed investment value (`quantity × avg_cost`) of the
priced holdings of one class. -/
def specInvestment (pm : String → Option (Option ℚ)) (isCrypto : Bool)
    (l : List (String × ℚ × ℚ)) : ℚ :=
  ((pricedAssets pm isCrypto l).map (fun x => x.1.2.1 * x.1.2.2)).sum

/-- Whether some holding of the named class matches the ticker after
uppercasing both sides — exactly the matches `remove_asset_from_portfolio`
deletes. -/
def classHasTicker (cls : AssetClass) (t : String) (p : Portfolio) : Bool :=
  match cls with
  | .stock => p.stocks.any (fun a => pyUpper a.ticker == pyUpper t)
  | .mutual_fund => p.mutual_funds.any (fun a => pyUpper a.ticker == pyUpper t)
  | .crypto => p.crypto.any (fun a => pyUpper a.ticker == pyUpper t)

/-- Spec-side: the portfolio with all case-insensitive matches of `t`
removed from the named class and the other two classes untouched. -/
def removeFiltered (cls : AssetClass) (t : String) (p : Portfolio) : Portfolio :=
  match cls with
  | .stock => { p with stocks := p.stocks.filter (fun a => pyUpper a.ticker != pyUpper t) }
  | .mutual_fund => { p with mutual_funds := p.mutual_funds.filter (fun a => pyUpper a.ticker != pyUpper t) }
  | .crypto => { p with crypto := p.crypto.filter (fun a => pyUpper a.ticker != pyUpper t) }

/-- A looked-up price entry that Python treats as falsy: the symbol is
missing, or its price is `null`, or its price is zero. -/
def untruthyPrice (m : Option (Option ℚ)) : Prop :=
  m = none ∨ m = some none ∨ m = some (some 0)

/-- Sample store: user `u` holding 10 shares of `AAPL` at an average cost of
100, already persisted. -/
def stAAPL : Store :=
  ⟨[("u", ⟨[⟨"AAPL", 10, 100, none⟩], [], []⟩)],
   [("u", ⟨[⟨"AAPL", 10, 100, none⟩], [], []⟩)]⟩

/-- Sample quote: `AAPL` trading at 150. -/
def qAAPL : Quote := ⟨"AAPL", some 150⟩

/-- Sample store: user `u` holding `BTC` only as crypto (2 coins at an
average cost of 20). -/
def stBTC : Store :=
  ⟨[("u", ⟨[], [], [⟨"BTC", 2, 20, none⟩]⟩)],
   [("u", ⟨[], [], [⟨"BTC", 2, 20, none⟩]⟩)]⟩

/-- Sample store: user `u` holding only the mutual fund `VTSAX` (10 units at
an average NAV of 100). -/
def stVTSAX : Store :=
  ⟨[("u", ⟨[], [⟨"VTSAX", 10, 100, none⟩], []⟩)],
   [("u", ⟨[], [⟨"VTSAX", 10, 100, none⟩], []⟩)]⟩

/-- Looking up a key in a one-longer table: the appended entry is found
exactly when the key was absent before. -/
lemma lookupTable_cons (e : String × Portfolio) (rest : List (String × Portfolio)) (uid : String) :
    lookupTable (e :: rest) uid = if e.1 = uid then some e.2 else lookupTable rest uid := by
  unfold lookupTable
  cases h : (e.1 == uid) with
  | true => simp [List.find?, h, beq_iff_eq.mp h]
  | false =>
      have hne : e.1 ≠ uid := by simpa using h
      simp [List.find?, h, hne]

/-- Appending a fresh entry makes it visible to a lookup of its key. -/
lemma lookupTable_append_single (tbl : List (String × Portfolio)) (uid : String) (p : Portfolio)
    (h : lookupTable tbl uid = none) :
    lookupTable (tbl ++ [(uid, p)]) uid = some p := by
  induction tbl with
  | nil => simp [lookupTable, List.find?]
  | cons e rest ih =>
      rw [List.cons_append, lookupTable_cons] at *
      by_cases he : e.1 = uid
      · simp [he] at h
      · simp only [if_neg he] at h ⊢
        exact ih h

/-- Appending an entry for another key does not change a lookup. -/
lemma lookupTable_append_ne (tbl : List (String × Portfolio)) (uid v : String) (p : Portfolio)
    (h : v ≠ uid) :
    lookupTable (tbl ++ [(uid, p)]) v = lookupTable tbl v := by
  induction tbl with
  | nil =>
      have hf : (uid == v) = false := beq_eq_false_iff_ne.mpr (Ne.symm h)
      simp [lookupTable, List.find?, hf]
  | cons e rest ih =>
      rw [List.cons_append, lookupTable_cons, lookupTable_cons]
      by_cases he : e.1 = v
      · simp [he]
      · simp only [if_neg he]
        exact ih

/-- After `setdefault`, the key is present and holds the portfolio a plain
lookup would observe (the stored one, or the empty one just created). -/
lemma lookupTable_setdefault_self (tbl : List (String × Portfolio)) (uid : String) :
    lookupTable (setdefaultTable tbl uid) uid = some ((lookupTable tbl uid).getD emptyPortfolio) := by
  unfold setdefaultTable
  cases h : lookupTable tbl uid with
  | some p => simp [h]
  | none => simp [h, lookupTable_append_single tbl uid emptyPortfolio h]

/-- `setdefault` for one key does not change lookups of other keys. -/
lemma lookupTable_setdefault_ne (tbl : List (String × Portfolio)) (uid v : String) (h : v ≠ uid) :
    lookupTable (setdefaultTable tbl uid) v = lookupTable tbl v := by
  unfold setdefaultTable
  cases hu : lookupTable tbl uid with
  | some p => rfl
  | none => exact lookupTable_append_ne tbl uid v emptyPortfolio h

/-- Assignment makes the assigned value visible to a lookup of its key. -/
lemma lookupTable_assign_self (tbl : List (String × Portfolio)) (uid : String) (p : Portfolio) :
    lookupTable (assignTable uid p tbl) uid = some p := by
  induction tbl with
  | nil => simp [assignTable, lookupTable, List.find?]
  | cons e rest ih =>
      unfold assignTable
      by_cases he : e.1 = uid
      · simp [he, lookupTable_cons]
      · rw [if_neg he, lookupTable_cons, if_neg he]
        exact ih

/-- Assignment for one key does not change lookups of other keys. -/
lemma lookupTable_assign_ne (tbl : List (String × Portfolio)) (uid v : String) (p : Portfolio)
    (h : v ≠ uid) :
    lookupTable (assignTable uid p tbl) v = lookupTable tbl v := by
  induction tbl with
  | nil =>
      have hf : (uid == v) = false := beq_eq_false_iff_ne.mpr (Ne.symm h)
      simp [assignTable, lookupTable, List.find?, hf]
  | cons e rest ih =>
      obtain ⟨k, q⟩ := e
      unfold assignTable
      by_cases he : k = uid
      · subst he
        rw [if_pos rfl, lookupTable_cons, lookupTable_cons]
        simp [Ne.symm h]
      · rw [if_neg he, lookupTable_cons, lookupTable_cons]
        by_cases hv : k = v
        · simp [hv]
        · simp only [if_neg hv]
          exact ih

/-- The portfolio `get_user_portfolio` returns is the one a plain lookup
observes (the empty one for an absent user). -/
lemma get_user_portfolio_snd (st : Store) (uid : String) :
    (get_user_portfolio st uid).2 = portfolioOf st uid := by
  unfold get_user_portfolio portfolioOf
  rw [lookupTable_setdefault_self]
  rfl

/-- A filter that keeps the complement of `f` shrinks the list exactly when
some element satisfies `f`. -/
lemma length_filter_not_lt_iff_any {α : Type} (f : α → Bool) (l : List α) :
    ((l.filter fun a => !(f a)).length < l.length) ↔ l.any f = true := by
  induction l with
  | nil => simp
  | cons a rest ih =>
      cases hf : f a with
      | true =>
          have hle := List.length_filter_le (fun a => !(f a)) rest
          simp [List.filter_cons, hf]
          omega
      | false => simpa [List.filter_cons, hf, Nat.succ_lt_succ_iff] using ih

/-- Characterization of `remove_asset_from_portfolio`: the crypto class
always raises `KeyError` on the missing `cryptos` key; for the other two
classes, a match assigns the filtered portfolio and persists the resulting
table, and a miss leaves the store unchanged apart from `setdefault`'s
materialization. -/
lemma remove_asset_from_portfolio_eq (st : Store) (uid : String) (cls : AssetClass) (t : String) :
    remove_asset_from_portfolio st uid cls t =
      if cls = AssetClass.crypto then
        (⟨setdefaultTable st.table uid, st.file⟩, PyResult.keyError "cryptos")
      else if classHasTicker cls t (portfolioOf st uid) then
        (⟨assignTable uid (removeFiltered cls t (portfolioOf st uid)) (setdefaultTable st.table uid),
          assignTable uid (removeFiltered cls t (portfolioOf st uid)) (setdefaultTable st.table uid)⟩,
         PyResult.ok true)
      else (⟨setdefaultTable st.table uid, st.file⟩, PyResult.ok false) := by
  have hp : (lookupTable st.table uid).getD emptyPortfolio = portfolioOf st uid := rfl
  cases cls with
  | crypto => simp [remove_asset_from_portfolio]
  | stock =>
      by_cases h : (portfolioOf st uid).stocks.any (fun a => pyUpper a.ticker == pyUpper t) = true
      · have hlt : ((portfolioOf st uid).stocks.filter
            (fun a => pyUpper a.ticker != pyUpper t)).length < (portfolioOf st uid).stocks.length := by
          simp only [bne]
          exact (length_filter_not_lt_iff_any _ _).mpr h
        simp [remove_asset_from_portfolio, lookupTable_setdefault_self,
          classHasTicker, removeFiltered, hp, h, hlt]
      · have hlt : ¬ ((portfolioOf st uid).stocks.filter
            (fun a => pyUpper a.ticker != pyUpper t)).length < (portfolioOf st uid).stocks.length := by
          simp only [bne]
          rw [length_filter_not_lt_iff_any]
          exact h
        simp [remove_asset_from_portfolio, lookupTable_setdefault_self,
          classHasTicker, hp, h, hlt]
  | mutual_fund =>
      by_cases h : (portfolioOf st uid).mutual_funds.any (fun a => pyUpper a.ticker == pyUpper t) = true
      · have hlt : ((portfolioOf st uid).mutual_funds.filter
            (fun a => pyUpper a.ticker != pyUpper t)).length < (portfolioOf st uid).mutual_funds.length := by
          simp only [bne]
          exact (length_filter_not_lt_iff_any _ _).mpr h
        simp [remove_asset_from_portfolio, lookupTable_setdefault_self,
          classHasTicker, removeFiltered, hp, h, hlt]
      · have hlt : ¬ ((portfolioOf st uid).mutual_funds.filter
            (fun a => pyUpper a.ticker != pyUpper t)).length < (portfolioOf st uid).mutual_funds.length := by
          simp only [bne]
          rw [length_filter_not_lt_iff_any]
          exact h
        simp [remove_asset_from_portfolio, lookupTable_setdefault_self,
          classHasTicker, hp, h, hlt]

/-- The accumulator loop of the summary computes, over any asset list, the
details, summed value and summed investment of exactly the priced
holdings. -/
lemma loopAssets_spec (pm : String → Option (Option ℚ)) (b : Bool) :
    ∀ (l : List (String × ℚ × ℚ)) (tv ti : ℚ) (ds : List Detail),
      loopAssets pm b l tv ti ds =
        (ds ++ specDetails pm b l, tv + specValue pm b l, ti + specInvestment pm b l) := by
  intro l
  induction l with
  | nil =>
      intro tv ti ds
      simp [loopAssets, specDetails, specValue, specInvestment, pricedAssets]
  | cons a rest ih =>
      intro tv ti ds
      obtain ⟨t, q, c⟩ := a
      simp only [loopAssets]
      cases hpm : truthyPrice (pm (assetSymbol b t)) with
      | none =>
          have hpp : pricedPrice pm b (t, q, c) = none := hpm
          simp [specDetails, specValue, specInvestment, pricedAssets,
            List.filterMap_cons, hpp, ih]
      | some p =>
          have hpp : pricedPrice pm b (t, q, c) = some p := hpm
          simp [specDetails, specValue, specInvestment, pricedAssets,
            List.filterMap_cons, hpp, add_assoc, ih]

/-- The report of `get_portfolio_summary` in closed form: the spec-side
details of the stocks and of the crypto holdings, and totals summed over the
priced holdings of exactly those two classes. -/
lemma reportOf_eq (pm : String → Option (Option ℚ)) (p : Portfolio) :
    reportOf pm p =
      SummaryResult.report
        (specDetails pm false (stockTriples p.stocks))
        (specDetails pm true (cryptoTriples p.crypto))
        (specValue pm false (stockTriples p.stocks) + specValue pm true (cryptoTriples p.crypto))
        (specInvestment pm false (stockTriples p.stocks) + specInvestment pm true (cryptoTriples p.crypto))
        ((specValue pm false (stockTriples p.stocks) + specValue pm true (cryptoTriples p.crypto)) -
          (specInvestment pm false (stockTriples p.stocks) + specInvestment pm true (cryptoTriples p.crypto))) := by
  simp only [reportOf, loopAssets_spec]
  simp [add_assoc]

/-- Priced-holding extraction only depends on the truthy view of the price
map: maps agreeing on truthy prices extract the same priced holdings. -/
lemma pricedAssets_congr (pm1 pm2 : String → Option (Option ℚ))
    (h : ∀ s, truthyPrice (pm1 s) = truthyPrice (pm2 s)) (b : Bool)
    (l : List (String × ℚ × ℚ)) :
    pricedAssets pm1 b l = pricedAssets pm2 b l := by
  unfold pricedAssets
  congr 1
  funext a
  unfold pricedPrice
  rw [h]

/-- The report only depends on the truthy view of the price map. -/
lemma reportOf_congr (pm1 pm2 : String → Option (Option ℚ))
    (h : ∀ s, truthyPrice (pm1 s) = truthyPrice (pm2 s)) (p : Portfolio) :
    reportOf pm1 p = reportOf pm2 p := by
  rw [reportOf_eq, reportOf_eq]
  simp [specDetails, specValue, specInvestment, pricedAssets_congr pm1 pm2 h]

/-- C2 (code bug exhibited): adding the same lowercase ticker twice leaves
two entries, not one — `add_asset_to_portfolio` compares existing tickers
against the uppercased input but stores the record with its raw ticker, so
the second call never matches the first entry and appends a duplicate. -/
theorem add_twice_lowercase_duplicates :
    (portfolioOf (add_asset_to_portfolio (add_asset_to_portfolio (Store.mk [] []) "u"
        (AssetData.stock ⟨"aapl", 1, 100, none⟩)).1 "u"
        (AssetData.stock ⟨"aapl", 2, 100, none⟩)).1 "u").stocks =
      [⟨"aapl", 1, 100, none⟩, ⟨"aapl", 2, 100, none⟩] := by decide

/-- C3 (code bug exhibited): the stored ticker is the verbatim input
`"aapl"`, not the canonical uppercase `"AAPL"` the uppercasing step would
produce; only the comparison key is uppercased. -/
theorem add_stores_ticker_verbatim :
    (portfolioOf (add_asset_to_portfolio (Store.mk [] []) "u"
        (AssetData.stock ⟨"aapl", 1, 100, none⟩)).1 "u").stocks.map StockHolding.ticker = ["aapl"] ∧
    pyUpper "aapl" = "AAPL" ∧ ("aapl" : String) ≠ "AAPL" := by decide

/-- C6 (counterexample): when the one outbound call fails — by transport
error or by a non-2xx status — `get_quotes` on a nonempty symbol list
returns `None`, not the empty list the claim states. -/
theorem get_quotes_failure_not_empty_list :
    get_quotes ["AAPL"] HttpOutcome.transportError ≠ some [] ∧
    get_quotes ["AAPL"] HttpOutcome.statusError ≠ some [] := by decide

/-- C6 (amended): `get_quotes` returns the empty list when the input symbol
list is empty, and returns the `None` sentinel — a falsy value and not a
propagated error object, but not an empty list — when the outbound call
fails with a transport error or a non-2xx response. -/
theorem get_quotes_empty_and_failure (symbols : List String) (oc : HttpOutcome) :
    (symbols = [] → get_quotes symbols oc = some []) ∧
    (symbols ≠ [] → (oc = HttpOutcome.transportError ∨ oc = HttpOutcome.statusError) →
      get_quotes symbols oc = none) := by
  constructor
  · intro h
    simp [get_quotes, h]
  · intro h hoc
    rcases hoc with h1 | h1 <;> simp [get_quotes, h, h1, make_request]

/-- Witness for the amended C6 at concrete inputs. -/
theorem get_quotes_empty_and_failure_witness :
    get_quotes [] HttpOutcome.transportError = some [] ∧
    get_quotes ["AAPL"] HttpOutcome.statusError = none :=
  ⟨(get_quotes_empty_and_failure [] HttpOutcome.transportError).1 rfl,
   (get_quotes_empty_and_failure ["AAPL"] HttpOutcome.statusError).2 (by decide) (Or.inr rfl)⟩

/-- C4 (counterexample): removing a ticker from an absent user's portfolio
returns `false` as claimed, but does not leave the store unchanged — the
read materializes an empty portfolio for the user in the in-memory table. -/
theorem remove_absent_user_changes_table :
    (remove_asset_from_portfolio (Store.mk [] []) "u" AssetClass.stock "AAPL").2 =
      PyResult.ok false ∧
    (remove_asset_from_portfolio (Store.mk [] []) "u" AssetClass.stock "AAPL").1 ≠ Store.mk [] [] := by
  decide

/-- C4 (amended): for the stock and mutual-fund classes, `remove` deletes
exactly the case-insensitive matches from the named asset class (other
classes and other users untouched), returns `true` iff at least one entry
matched, persists the table iff removal occurred; on a miss it returns
`false` and leaves the store unchanged apart from materializing an empty
portfolio for a previously absent user — for an existing user the store is
fully unchanged.  For the crypto class the handler instead raises
`KeyError` on the nonexistent `cryptos` key: nothing is removed, nothing is
persisted, and only the same materialization effect happens. -/
theorem remove_asset_from_portfolio_spec (st : Store) (uid : String) (cls : AssetClass) (t : String) :
    (cls = AssetClass.crypto →
      (remove_asset_from_portfolio st uid cls t).2 = PyResult.keyError "cryptos" ∧
      (remove_asset_from_portfolio st uid cls t).1.table = setdefaultTable st.table uid ∧
      (remove_asset_from_portfolio st uid cls t).1.file = st.file) ∧
    (cls ≠ AssetClass.crypto →
      ((remove_asset_from_portfolio st uid cls t).2 =
        PyResult.ok (classHasTicker cls t (portfolioOf st uid))) ∧
      (classHasTicker cls t (portfolioOf st uid) = true →
        portfolioOf (remove_asset_from_portfolio st uid cls t).1 uid =
          removeFiltered cls t (portfolioOf st uid) ∧
        (∀ v, v ≠ uid →
          lookupTable (remove_asset_from_portfolio st uid cls t).1.table v =
            lookupTable st.table v) ∧
        (remove_asset_from_portfolio st uid cls t).1.file =
          (remove_asset_from_portfolio st uid cls t).1.table) ∧
      (classHasTicker cls t (portfolioOf st uid) = false →
        (remove_asset_from_portfolio st uid cls t).1.table = setdefaultTable st.table uid ∧
        (remove_asset_from_portfolio st uid cls t).1.file = st.file) ∧
      (classHasTicker cls t (portfolioOf st uid) = false → lookupTable st.table uid ≠ none →
        (remove_asset_from_portfolio st uid cls t).1 = st)) := by
  rw [remove_asset_from_portfolio_eq]
  constructor
  · intro hcls
    rw [if_pos hcls]
    exact ⟨rfl, rfl, rfl⟩
  · intro hcls
    rw [if_neg hcls]
    by_cases hc : classHasTicker cls t (portfolioOf st uid) = true
    · rw [if_pos hc]
      refine ⟨by rw [hc], ?_, ?_, ?_⟩
      · intro _
        refine ⟨?_, ?_, rfl⟩
        · unfold portfolioOf
          rw [lookupTable_assign_self]
          rfl
        · intro v hv
          rw [lookupTable_assign_ne _ _ _ _ hv, lookupTable_setdefault_ne _ _ _ hv]
      · intro hfalse
        rw [hc] at hfalse
        cases hfalse
      · intro hfalse
        rw [hc] at hfalse
        cases hfalse
    · have hcf : classHasTicker cls t (portfolioOf st uid) = false := by
        simpa using hc
      rw [if_neg hc]
      refine ⟨by rw [hcf], ?_, fun _ => ⟨rfl, rfl⟩, ?_⟩
      · intro htrue
        rw [hcf] at htrue
        cases htrue
      · intro _ hpresent
        obtain ⟨tb, fl⟩ := st
        unfold setdefaultTable
        cases hl : lookupTable tb uid with
        | some p => rfl
        | none => exact absurd hl hpresent

/-- Witness for the amended C4: removing the lowercase ticker of a stored
uppercase holding succeeds and filters exactly the matching entries. -/
theorem remove_asset_from_portfolio_spec_witness :
    (remove_asset_from_portfolio stAAPL "u" AssetClass.stock "aapl").2 = PyResult.ok true ∧
    portfolioOf (remove_asset_from_portfolio stAAPL "u" AssetClass.stock "aapl").1 "u" =
      removeFiltered AssetClass.stock "aapl" (portfolioOf stAAPL "u") := by
  have h := remove_asset_from_portfolio_spec stAAPL "u" AssetClass.stock "aapl"
  exact ⟨by decide, ((h.2 (by decide)).2.1 (by decide)).1⟩

/-- C9 (code bug exhibited): with `BTC` held only as crypto, the stock
attempt of `remove_asset` misses and the crypto attempt raises
`KeyError` — `remove_asset_from_portfolio` subscripts
`portfolio["cryptos"]`, a key the portfolio document does not have — so
instead of proceeding down the stock/crypto/mutual-fund order and removing
from the crypto class, the tool aborts with the error, the holding survives
untouched, and the mutual-fund attempt and the not-found reply are
unreachable. -/
theorem remove_asset_crypto_keyerror :
    (remove_asset stBTC "u" "BTC").2 = PyResult.keyError "cryptos" ∧
    portfolioOf (remove_asset stBTC "u" "BTC").1 "u" =
      Portfolio.mk [] [] [⟨"BTC", 2, 20, none⟩] := by decide

/-- C10: `get_user_portfolio` materializes an absent user as an appended
empty entry in the table but never writes the file; the summary never
writes the file; an `add_asset_to_portfolio` that completes persists the
updated table while one that raises (the crypto `KeyError`) leaves the file
unchanged; `remove_asset_from_portfolio` persists the updated table exactly
when it actually removed something and in every other outcome — a miss or
the crypto `KeyError` — leaves the file unchanged.  So the file is
rewritten only by a completing add and by a remove that removed an
entry. -/
theorem file_write_discipline (st : Store) (uid : String) :
    ((get_user_portfolio st uid).1.file = st.file) ∧
    (lookupTable st.table uid = none →
      (get_user_portfolio st uid).1.table = st.table ++ [(uid, emptyPortfolio)]) ∧
    (∀ oc, (get_portfolio_summary st uid oc).1.file = st.file) ∧
    (∀ d, (add_asset_to_portfolio st uid d).2 = PyResult.ok () →
      (add_asset_to_portfolio st uid d).1.file = (add_asset_to_portfolio st uid d).1.table) ∧
    (∀ d, (add_asset_to_portfolio st uid d).2 ≠ PyResult.ok () →
      (add_asset_to_portfolio st uid d).1.file = st.file) ∧
    (∀ cls t, (remove_asset_from_portfolio st uid cls t).2 = PyResult.ok true →
      (remove_asset_from_portfolio st uid cls t).1.file =
        (remove_asset_from_portfolio st uid cls t).1.table) ∧
    (∀ cls t, (remove_asset_from_portfolio st uid cls t).2 ≠ PyResult.ok true →
      (remove_asset_from_portfolio st uid cls t).1.file = st.file) := by
  refine ⟨rfl, ?_, ?_, ?_, ?_, ?_, ?_⟩
  · intro h
    simp [get_user_portfolio, setdefaultTable, h]
  · intro oc
    unfold get_portfolio_summary
    split
    · rfl
    · split <;> rfl
  · intro d hd
    cases d with
    | stock h => rfl
    | mutual_fund h => rfl
    | crypto h => exact PyResult.noConfusion hd
  · intro d hd
    cases d with
    | stock h => exact absurd rfl hd
    | mutual_fund h => exact absurd rfl hd
    | crypto h => rfl
  · intro cls t h
    rw [remove_asset_from_portfolio_eq] at h ⊢
    cases cls with
    | crypto => simp at h
    | stock =>
        by_cases hc : classHasTicker AssetClass.stock t (portfolioOf st uid) = true
        · simp [hc]
        · simp [hc] at h
    | mutual_fund =>
        by_cases hc : classHasTicker AssetClass.mutual_fund t (portfolioOf st uid) = true
        · simp [hc]
        · simp [hc] at h
  · intro cls t h
    rw [remove_asset_from_portfolio_eq] at h ⊢
    cases cls with
    | crypto => simp
    | stock =>
        by_cases hc : classHasTicker AssetClass.stock t (portfolioOf st uid) = true
        · simp [hc] at h
        · simp [hc]
    | mutual_fund =>
        by_cases hc : classHasTicker AssetClass.mutual_fund t (portfolioOf st uid) = true
        · simp [hc] at h
        · simp [hc]

/-- Witness for C10: reading an absent user appends an empty entry to the
table and leaves the (empty) file alone, and a crypto add — which raises —
also leaves the file alone. -/
theorem file_write_discipline_witness :
    (get_user_portfolio (Store.mk [] []) "u").1.table = [] ++ [("u", emptyPortfolio)] ∧
    (get_user_portfolio (Store.mk [] []) "u").1.file = [] ∧
    (add_asset_to_portfolio (Store.mk [] []) "u"
      (AssetData.crypto ⟨"BTC", 1, 1, none⟩)).1.file = [] := by
  have h := file_write_discipline (Store.mk [] []) "u"
  exact ⟨h.2.1 rfl, h.1,
    h.2.2.2.2.1 (AssetData.crypto ⟨"BTC", 1, 1, none⟩) (by decide)⟩

/-- C5: for a user with no holdings in any of the three asset classes,
`get_portfolio_summary` returns the designated empty-portfolio message —
whatever the network would have answered — and issues zero batch-quote
requests. -/
theorem summary_empty_portfolio (st : Store) (uid : String) (oc : HttpOutcome)
    (h : portfolioOf st uid = emptyPortfolio) :
    (get_portfolio_summary st uid oc).2 = SummaryResult.message emptyPortfolioMessage ∧
    summary_fetch_calls st uid = [] := by
  have h2 : allTickers (get_user_portfolio st uid).2 = [] := by
    rw [get_user_portfolio_snd, h]
    rfl
  constructor
  · unfold get_portfolio_summary
    rw [if_pos h2]
  · unfold summary_fetch_calls
    rw [if_pos h2]

/-- Witness for C5: an absent user observes the empty message even under a
transport failure (no request is needed, none is made). -/
theorem summary_empty_portfolio_witness :
    (get_portfolio_summary (Store.mk [] []) "u" HttpOutcome.transportError).2 =
      SummaryResult.message emptyPortfolioMessage ∧
    summary_fetch_calls (Store.mk [] []) "u" = [] :=
  summary_empty_portfolio (Store.mk [] []) "u" HttpOutcome.transportError rfl

/-- C7: for a user with at least one holding, when the batch quote fetch
fails entirely — `None` from a failed request or an empty quote list —
`get_portfolio_summary` returns the transient-unavailable message, produces
no partial report, and the store is modified only by the lazy
materialization of `get_user_portfolio` (the file not at all). -/
theorem summary_unavailable_on_fetch_failure (st : Store) (uid : String) (oc : HttpOutcome)
    (h1 : allTickers (portfolioOf st uid) ≠ [])
    (h2 : make_request oc = none ∨ make_request oc = some []) :
    get_portfolio_summary st uid oc =
      (⟨setdefaultTable st.table uid, st.file⟩, SummaryResult.message priceUnavailableMessage) := by
  have h1' : allTickers (get_user_portfolio st uid).2 ≠ [] := by
    rw [get_user_portfolio_snd]
    exact h1
  unfold get_portfolio_summary
  rw [if_neg h1']
  have hq : get_quotes (allTickers (get_user_portfolio st uid).2) oc = make_request oc := by
    simp [get_quotes, h1']
  rcases h2 with h2 | h2 <;> rw [hq, h2] <;> rfl

/-- Witness for C7 at a concrete store and a non-2xx response. -/
theorem summary_unavailable_witness :
    get_portfolio_summary stAAPL "u" HttpOutcome.statusError =
      (⟨setdefaultTable stAAPL.table "u", stAAPL.file⟩,
       SummaryResult.message priceUnavailableMessage) :=
  summary_unavailable_on_fetch_failure stAAPL "u" HttpOutcome.statusError (by decide) (Or.inl rfl)

/-- C1 (counterexample): a user holding only a mutual fund, whose symbol is
present in the quote mapping with a usable price of 150, gets a report with
empty details and all totals zero — the claimed accumulation
(`current_value = 10 × 150 = 1500` into `total_value`) never happens,
because the valuation loop visits only stocks and crypto. -/
theorem summary_ignores_mutual_funds_counterexample :
    (get_portfolio_summary stVTSAX "u" (HttpOutcome.ok [⟨"VTSAX", some 150⟩])).2 =
      SummaryResult.report [] [] 0 0 0 ∧
    price_map_get [⟨"VTSAX", some 150⟩] "VTSAX" = some (some 150) ∧
    truthyPrice (price_map_get [⟨"VTSAX", some 150⟩] "VTSAX") = some 150 := by
  refine ⟨?_, by decide, by decide⟩
  have h : (get_portfolio_summary stVTSAX "u" (HttpOutcome.ok [⟨"VTSAX", some 150⟩])).2 =
      SummaryResult.report [] [] 0 0 (0 - 0) := rfl
  rw [h]
  norm_num

/-- C1 (amended): `get_portfolio_summary` collects a market symbol for
every holding of all three classes (crypto tickers suffixed with `USD`) in
its single batch request, but values only stocks and crypto: for each stock
or crypto holding whose uppercased symbol maps to a non-null nonzero price
it reports `current_value = quantity × price`,
`investment_value = quantity × avg_cost`,
`gain_loss = current_value − investment_value`, and accumulates
`total_value`, `total_investment` and
`total_gain_loss = total_value − total_investment` over exactly those
priced stock and crypto holdings; mutual funds never contribute to details
or totals. -/
theorem get_portfolio_summary_valuation (st : Store) (uid : String) (qs : List Quote)
    (h1 : allTickers (portfolioOf st uid) ≠ []) (h2 : qs ≠ []) :
    (get_portfolio_summary st uid (HttpOutcome.ok qs)).2 =
      SummaryResult.report
        (specDetails (price_map_get qs) false (stockTriples (portfolioOf st uid).stocks))
        (specDetails (price_map_get qs) true (cryptoTriples (portfolioOf st uid).crypto))
        (specValue (price_map_get qs) false (stockTriples (portfolioOf st uid).stocks) +
          specValue (price_map_get qs) true (cryptoTriples (portfolioOf st uid).crypto))
        (specInvestment (price_map_get qs) false (stockTriples (portfolioOf st uid).stocks) +
          specInvestment (price_map_get qs) true (cryptoTriples (portfolioOf st uid).crypto))
        ((specValue (price_map_get qs) false (stockTriples (portfolioOf st uid).stocks) +
          specValue (price_map_get qs) true (cryptoTriples (portfolioOf st uid).crypto)) -
         (specInvestment (price_map_get qs) false (stockTriples (portfolioOf st uid).stocks) +
          specInvestment (price_map_get qs) true (cryptoTriples (portfolioOf st uid).crypto))) ∧
    summary_fetch_calls st uid = [allTickers (portfolioOf st uid)] := by
  have h1' : allTickers (get_user_portfolio st uid).2 ≠ [] := by
    rw [get_user_portfolio_snd]
    exact h1
  constructor
  · unfold get_portfolio_summary
    rw [if_neg h1']
    have hq : get_quotes (allTickers (get_user_portfolio st uid).2) (HttpOutcome.ok qs) = some qs := by
      simp [get_quotes, h1', make_request]
    rw [hq]
    cases qs with
    | nil => exact absurd rfl h2
    | cons q rest => simp only [get_user_portfolio_snd, reportOf_eq]
  · unfold summary_fetch_calls
    rw [get_user_portfolio_snd, if_neg h1]

/-- Witness for the amended C1, including the spec's worked example:
10 shares of `AAPL` at cost 100 and a 150 quote yield a current value of
1500, an investment of 1000 and a gain of 500. -/
theorem get_portfolio_summary_valuation_witness :
    ((get_portfolio_summary stAAPL "u" (HttpOutcome.ok [qAAPL])).2 =
      SummaryResult.report
        (specDetails (price_map_get [qAAPL]) false (stockTriples (portfolioOf stAAPL "u").stocks))
        (specDetails (price_map_get [qAAPL]) true (cryptoTriples (portfolioOf stAAPL "u").crypto))
        (specValue (price_map_get [qAAPL]) false (stockTriples (portfolioOf stAAPL "u").stocks) +
          specValue (price_map_get [qAAPL]) true (cryptoTriples (portfolioOf stAAPL "u").crypto))
        (specInvestment (price_map_get [qAAPL]) false (stockTriples (portfolioOf stAAPL "u").stocks) +
          specInvestment (price_map_get [qAAPL]) true (cryptoTriples (portfolioOf stAAPL "u").crypto))
        ((specValue (price_map_get [qAAPL]) false (stockTriples (portfolioOf stAAPL "u").stocks) +
          specValue (price_map_get [qAAPL]) true (cryptoTriples (portfolioOf stAAPL "u").crypto)) -
         (specInvestment (price_map_get [qAAPL]) false (stockTriples (portfolioOf stAAPL "u").stocks) +
          specInvestment (price_map_get [qAAPL]) true (cryptoTriples (portfolioOf stAAPL "u").crypto))) ∧
      summary_fetch_calls stAAPL "u" = [allTickers (portfolioOf stAAPL "u")]) ∧
    (get_portfolio_summary stAAPL "u" (HttpOutcome.ok [qAAPL])).2 =
      SummaryResult.report [⟨"AAPL", 10, 150, 1500, 500⟩] [] 1500 1000 500 := by
  refine ⟨get_portfolio_summary_valuation stAAPL "u" [qAAPL] (by decide) (by decide), ?_⟩
  have hup : pyUpper "AAPL" = "AAPL" := by decide
  norm_num [get_portfolio_summary, get_user_portfolio, setdefaultTable, lookupTable,
    stAAPL, allTickers, get_quotes, make_request, reportOf, loopAssets, stockTriples,
    cryptoTriples, price_map_get, truthyPrice, assetSymbol, hup, qAAPL]

/-- C8: a holding whose symbol is present in the quote mapping but carries a
zero or `null` price is treated exactly like a holding whose symbol is
missing: two quote lists whose price maps agree except on such falsy
entries drive `get_portfolio_summary` to the same result, so the holding
appears in no detail list and contributes nothing to any total. -/
theorem zero_or_null_price_like_missing (st : Store) (uid : String) (qs1 qs2 : List Quote)
    (hq1 : qs1 ≠ []) (hq2 : qs2 ≠ [])
    (h : ∀ s, price_map_get qs1 s = price_map_get qs2 s ∨
      (untruthyPrice (price_map_get qs1 s) ∧ untruthyPrice (price_map_get qs2 s))) :
    get_portfolio_summary st uid (HttpOutcome.ok qs1) =
      get_portfolio_summary st uid (HttpOutcome.ok qs2) := by
  have ht : ∀ s, truthyPrice (price_map_get qs1 s) = truthyPrice (price_map_get qs2 s) := by
    intro s
    rcases h s with h1 | ⟨h1, h2⟩
    · rw [h1]
    · have e1 : truthyPrice (price_map_get qs1 s) = none := by
        rcases h1 with h1 | h1 | h1 <;> simp [truthyPrice, h1]
      have e2 : truthyPrice (price_map_get qs2 s) = none := by
        rcases h2 with h2 | h2 | h2 <;> simp [truthyPrice, h2]
      rw [e1, e2]
  unfold get_portfolio_summary
  by_cases hemp : allTickers (get_user_portfolio st uid).2 = []
  · rw [if_pos hemp, if_pos hemp]
  · rw [if_neg hemp, if_neg hemp]
    have hg1 : get_quotes (allTickers (get_user_portfolio st uid).2) (HttpOutcome.ok qs1) = some qs1 := by
      simp [get_quotes, hemp, make_request]
    have hg2 : get_quotes (allTickers (get_user_portfolio st uid).2) (HttpOutcome.ok qs2) = some qs2 := by
      simp [get_quotes, hemp, make_request]
    rw [hg1, hg2]
    cases qs1 with
    | nil => exact absurd rfl hq1
    | cons a l1 =>
        cases qs2 with
        | nil => exact absurd rfl hq2
        | cons b l2 =>
            have hr := reportOf_congr (price_map_get (a :: l1)) (price_map_get (b :: l2)) ht
              (get_user_portfolio st uid).2
            simp only [hr]

/-- Witness for C8: an `AAPL` quote priced zero produces the same summary as
an `AAPL` quote with a `null` price (and hence as a missing symbol). -/
theorem zero_or_null_price_like_missing_witness :
    get_portfolio_summary stAAPL "u" (HttpOutcome.ok [⟨"AAPL", some 0⟩]) =
      get_portfolio_summary stAAPL "u" (HttpOutcome.ok [Quote.mk "AAPL" none]) := by
  apply zero_or_null_price_like_missing stAAPL "u" _ _ (by decide) (by decide)
  intro s
  by_cases hs : s = "AAPL"
  · subst hs
    exact Or.inr ⟨Or.inr (Or.inr (by decide)), Or.inr (Or.inl (by decide))⟩
  · left
    have hf : ("AAPL" == s) = false := beq_eq_false_iff_ne.mpr (Ne.symm hs)
    simp [price_map_get, List.find?, hf]

end F1n
